import Mathlib

/-!
Verification of the redrock redshift-candidate pipeline (`py/redrock/zfind.py`
and `py/redrock/io.py`) against its specification.

Conventions of the shallow embedding:
* numpy float arrays become `List ℚ` (exact arithmetic; none of the verified
  claims depends on rounding), and the redshift scan grids of `read_template`,
  which are built from base-10 logarithms, are modelled over `ℝ`;
* an astropy table becomes a `List` of `ZRow` records, one per candidate row;
* a Python dict becomes an association list in insertion order;
* raising an exception becomes returning `Except.error`;
* the external collaborators (the chi2-scan engine `calc_zchi2_targets`, the
  fit-refinement engine `parallel_fitz_targets`, the filesystem and the
  environment) are parameters of the functions that call them.
-/

namespace Redrock

/-- One row of a refined-candidate table. The fields `z, zerr, chi2, coeff,
zwarn` are produced by the external fit-refinement engine; `spectype, subtype,
targetid, znum, deltachi2` are the columns `zfind` adds while aggregating
(zfind.py lines 104-120). -/
structure ZRow where
  z : ℚ
  zerr : ℚ
  chi2 : ℚ
  coeff : List ℚ
  zwarn : ℕ
  spectype : String
  subtype : String
  targetid : ℕ
  znum : ℕ
  deltachi2 : ℚ
deriving DecidableEq, Inhabited, Repr

/-- Modelled from the spec: the "small delta chi2" bit of the `zwarn` mask.
The mask constants live in `redrock.zwarning` (`ZWarningMask.SMALL_DELTA_CHI2`),
which is not among the repository files under verification; the claims only
use that it is a fixed nonzero bit, so one concrete bit is chosen. -/
def SMALL_DELTA_CHI2 : ℕ := 4

/-- The comparison `tzfit.sort(chi2)` sorts by: row order by ascending chi2. -/
def chi2le (a b : ZRow) : Prop := a.chi2 ≤ b.chi2

instance : DecidableRel chi2le := fun a b => by
  unfold chi2le; infer_instance

instance : IsTotal ZRow chi2le := ⟨fun a b => le_total a.chi2 b.chi2⟩

instance : IsTrans ZRow chi2le := ⟨fun _ _ _ h h2 => le_trans h h2⟩

/-- Embedding of `fulltype.split(':')` guarded by `fulltype.count(':') > 0`
(zfind.py lines 100-103): the part before the first colon and the part after
it; a fulltype with no colon has an empty subtype. -/
def splitFulltype (ft : String) : String × String :=
  if ft.data.any (fun c => c = ':') then
    (⟨ft.data.takeWhile (fun c => c ≠ ':')⟩,
     ⟨(ft.data.dropWhile (fun c => c ≠ ':')).tail⟩)
  else (ft, "")

/-- The per-target collection step of zfind.py lines 96-107: every template
contributes its refined table, each row tagged with the `spectype`/`subtype`
parsed from the template fulltype. The input pairs a fulltype with the rows of
its refined-candidate table, in template order. -/
def mergedRows (tables : List (String × List ZRow)) : List ZRow :=
  tables.flatMap (fun t =>
    (t.2).map (fun r =>
      { r with spectype := (splitFulltype t.1).1, subtype := (splitFulltype t.1).2 }))

/-- Embedding of `maxncoeff = max([tmp['coeff'].shape[1] for tmp in tzfit])`
(zfind.py line 109), taken over the rows of the already-merged tables: within
one table every row has the column width of its table, so the row-level maximum
equals the table-level maximum. -/
def maxncoeff (rows : List ZRow) : ℕ :=
  (rows.map (fun r => r.coeff.length)).foldr max 0

/-- Right zero-padding of one coefficient vector to width `w`
(zfind.py lines 110-114). -/
def padRow (w : ℕ) (r : ZRow) : ZRow :=
  { r with coeff := r.coeff ++ List.replicate (w - r.coeff.length) 0 }

/-- The merged, zero-padded table of zfind.py lines 109-116 (before sorting). -/
def paddedRows (tables : List (String × List ZRow)) : List ZRow :=
  (mergedRows tables).map (padRow (maxncoeff (mergedRows tables)))

/-- Embedding of `tzfit.sort('chi2')` on the merged table (zfind.py line 117):
a stable ascending sort by chi2. -/
def sortedRows (tables : List (String × List ZRow)) : List ZRow :=
  List.insertionSort chi2le (paddedRows tables)

/-- One row after the column assignments of zfind.py lines 118-122:
`targetid`, `znum = i`, `deltachi2 = d` (the forward difference), and the
small-delta-chi2 bit OR-ed into `zwarn` when `d < 9`. -/
def setRow (tid i : ℕ) (d : ℚ) (r : ZRow) : ZRow :=
  { r with targetid := tid, znum := i, deltachi2 := d,
           zwarn := if d < 9 then r.zwarn ||| SMALL_DELTA_CHI2 else r.zwarn }

/-- Row-wise form of zfind.py lines 118-122 on a tail of the sorted table,
`i` being the rank of its head: `znum` is `numpy.arange(len)`, `deltachi2`
is `numpy.ediff1d(chi2, to_end=0.0)`. -/
def annotateFrom (tid i : ℕ) : List ZRow → List ZRow
  | [] => []
  | r :: rest =>
      setRow tid i (match rest.head? with
        | some r2 => r2.chi2 - r.chi2
        | none => 0) r :: annotateFrom tid (i + 1) rest

/-- The column assignments of zfind.py lines 118-122 applied to the sorted
merged table. -/
def annotate (tid : ℕ) (rows : List ZRow) : List ZRow :=
  annotateFrom tid 0 rows

/-- Lexicographic comparison of character lists by code point, the order in
which `numpy.unique` returns ASCII strings. -/
def charsLe : List Char → List Char → Bool
  | [], _ => true
  | _ :: _, [] => false
  | a :: as, b :: bs => if a < b then true else if b < a then false else charsLe as bs

/-- String order used to model `numpy.unique` on the spectype column. -/
def strle (a b : String) : Prop := charsLe a.data b.data = true

instance : DecidableRel strle := fun a b => by
  unfold strle; infer_instance

/-- Embedding of `numpy.unique(tzfit['spectype'])` (zfind.py line 127): the
distinct values, in ascending order. -/
def uniqueSorted (l : List String) : List String :=
  List.insertionSort strle l.dedup

/-- Embedding of the `iikeep` construction of zfind.py lines 126-129: for each
distinct spectype in ascending order, the first `nminima` positions (in the
chi2-sorted table) holding that spectype. -/
def keepIndices (nminima : ℕ) (rows : List ZRow) : List ℕ :=
  (uniqueSorted (rows.map (fun r => r.spectype))).flatMap (fun s =>
    ((List.range rows.length).filter
      (fun i => (rows.getD i default).spectype = s)).take nminima)

/-- Embedding of zfind.py lines 130-133: when trimming removes rows, take the
kept rows (grouped by spectype) and re-sort them by chi2; otherwise the table
is returned unchanged. -/
def trimRows (nminima : ℕ) (rows : List ZRow) : List ZRow :=
  let iikeep := keepIndices nminima rows
  if iikeep.length < rows.length then
    List.insertionSort chi2le (iikeep.filterMap (fun i => rows[i]?))
  else rows

/-- The whole per-target aggregation of zfind.py lines 96-135: tag and merge
the per-template refined tables, zero-pad the coefficients, sort by chi2,
assign `targetid`/`znum`/`deltachi2`/`zwarn`, and trim to `nminima` rows per
spectype. This is the ranked candidate table `zfind` appends to `zfit` for
one target. -/
def aggregateTarget (tables : List (String × List ZRow)) (tid : ℕ)
    (nminima : ℕ) : List ZRow :=
  trimRows nminima (annotate tid (sortedRows tables))

end Redrock

namespace Redrock

theorem setRow_chi2 (tid i : ℕ) (d : ℚ) (r : ZRow) : (setRow tid i d r).chi2 = r.chi2 := rfl

theorem setRow_spectype (tid i : ℕ) (d : ℚ) (r : ZRow) :
    (setRow tid i d r).spectype = r.spectype := rfl

theorem setRow_znum (tid i : ℕ) (d : ℚ) (r : ZRow) : (setRow tid i d r).znum = i := rfl

theorem setRow_deltachi2 (tid i : ℕ) (d : ℚ) (r : ZRow) : (setRow tid i d r).deltachi2 = d := rfl

theorem annotateFrom_length (tid s : ℕ) (l : List ZRow) :
    (annotateFrom tid s l).length = l.length := by
  induction l generalizing s with
  | nil => rfl
  | cons r rest ih => simp [annotateFrom, ih]

theorem annotateFrom_map_chi2 (tid s : ℕ) (l : List ZRow) :
    (annotateFrom tid s l).map ZRow.chi2 = l.map ZRow.chi2 := by
  induction l generalizing s with
  | nil => rfl
  | cons r rest ih => simp [annotateFrom, setRow_chi2, ih]

theorem annotateFrom_map_spectype (tid s : ℕ) (l : List ZRow) :
    (annotateFrom tid s l).map ZRow.spectype = l.map ZRow.spectype := by
  induction l generalizing s with
  | nil => rfl
  | cons r rest ih => simp [annotateFrom, setRow_spectype, ih]

theorem annotate_map_chi2 (tid : ℕ) (l : List ZRow) :
    (annotate tid l).map ZRow.chi2 = l.map ZRow.chi2 :=
  annotateFrom_map_chi2 tid 0 l

theorem annotate_map_spectype (tid : ℕ) (l : List ZRow) :
    (annotate tid l).map ZRow.spectype = l.map ZRow.spectype :=
  annotateFrom_map_spectype tid 0 l

theorem sorted_chi2_iff (l : List ZRow) :
    List.Sorted chi2le l ↔ (l.map ZRow.chi2).Sorted (· ≤ ·) := by
  unfold List.Sorted
  rw [List.pairwise_map]
  exact Iff.rfl

theorem sorted_sortedRows (tables : List (String × List ZRow)) :
    List.Sorted chi2le (sortedRows tables) :=
  List.sorted_insertionSort chi2le (paddedRows tables)

theorem sorted_annotate (tid : ℕ) (l : List ZRow) (h : List.Sorted chi2le l) :
    List.Sorted chi2le (annotate tid l) := by
  rw [sorted_chi2_iff, annotate_map_chi2]
  exact (sorted_chi2_iff l).mp h

theorem map_chi2_paddedRows (tables : List (String × List ZRow)) :
    (paddedRows tables).map ZRow.chi2 = (mergedRows tables).map ZRow.chi2 := by
  unfold paddedRows
  rw [List.map_map]
  rfl

theorem map_spectype_paddedRows (tables : List (String × List ZRow)) :
    (paddedRows tables).map ZRow.spectype = (mergedRows tables).map ZRow.spectype := by
  unfold paddedRows
  rw [List.map_map]
  rfl

theorem perm_sortedRows (tables : List (String × List ZRow)) :
    (sortedRows tables).Perm (paddedRows tables) :=
  List.perm_insertionSort chi2le (paddedRows tables)

/-- The chi2 column of the annotated, sorted, merged table is a permutation
of the chi2 values of all candidate rows collected for the target. -/
theorem perm_map_chi2_pre (tables : List (String × List ZRow)) (tid : ℕ) :
    ((annotate tid (sortedRows tables)).map ZRow.chi2).Perm
      ((mergedRows tables).map ZRow.chi2) := by
  rw [annotate_map_chi2, ← map_chi2_paddedRows]
  exact (perm_sortedRows tables).map ZRow.chi2

theorem perm_map_spectype_pre (tables : List (String × List ZRow)) (tid : ℕ) :
    ((annotate tid (sortedRows tables)).map ZRow.spectype).Perm
      ((mergedRows tables).map ZRow.spectype) := by
  rw [annotate_map_spectype, ← map_spectype_paddedRows]
  exact (perm_sortedRows tables).map ZRow.spectype

theorem length_uniqueSorted (l : List String) :
    (uniqueSorted l).length = l.dedup.length :=
  (List.perm_insertionSort strle l.dedup).length_eq

theorem mem_uniqueSorted (l : List String) (s : String) :
    s ∈ uniqueSorted l ↔ s ∈ l := by
  unfold uniqueSorted
  rw [List.mem_insertionSort, List.mem_dedup]

/-- The kept index list has at most `nminima` entries per distinct spectype. -/
theorem keepIndices_length_le (nminima : ℕ) (rows : List ZRow) :
    (keepIndices nminima rows).length ≤
      nminima * (rows.map ZRow.spectype).dedup.length := by
  unfold keepIndices
  rw [List.length_flatMap]
  have hb : ∀ x ∈ (List.map
      (List.length ∘ fun s => ((List.range rows.length).filter
        (fun i => (rows.getD i default).spectype = s)).take nminima)
      (uniqueSorted (rows.map ZRow.spectype))), x ≤ nminima := by
    intro x hx
    obtain ⟨s, _, rfl⟩ := List.mem_map.mp hx
    simp only [Function.comp_apply, List.length_take]
    exact min_le_left _ _
  calc (List.map _ (uniqueSorted (rows.map ZRow.spectype))).sum
      ≤ (List.map (List.length ∘ fun s => ((List.range rows.length).filter
          (fun i => (rows.getD i default).spectype = s)).take nminima)
          (uniqueSorted (rows.map ZRow.spectype))).length • nminima :=
        List.sum_le_card_nsmul _ _ hb
    _ = (uniqueSorted (rows.map ZRow.spectype)).length * nminima := by
        rw [smul_eq_mul, List.length_map]
    _ = (rows.map ZRow.spectype).dedup.length * nminima := by
        rw [length_uniqueSorted]
    _ = nminima * (rows.map ZRow.spectype).dedup.length := Nat.mul_comm _ _

end Redrock

namespace Redrock

/-- With `nminima ≥ 1`, index 0 — the position of the best (smallest chi2) row
of the sorted table — is always kept: it is the first index of its own
spectype group. -/
theorem zero_mem_keepIndices (nminima : ℕ) (rows : List ZRow)
    (hmin : 1 ≤ nminima) (hne : rows ≠ []) : 0 ∈ keepIndices nminima rows := by
  obtain ⟨r0, rest, rfl⟩ := List.exists_cons_of_ne_nil hne
  unfold keepIndices
  rw [List.mem_flatMap]
  refine ⟨r0.spectype, ?_, ?_⟩
  · rw [mem_uniqueSorted]
    exact List.mem_map.mpr ⟨r0, List.mem_cons_self r0 rest, rfl⟩
  · obtain ⟨m, rfl⟩ := Nat.exists_eq_add_of_le hmin
    have hr : List.range (r0 :: rest).length =
        0 :: (List.range rest.length).map Nat.succ := by
      rw [List.length_cons, List.range_succ_eq_map]
    rw [hr, List.filter_cons]
    simp only [List.getD_cons_zero, decide_eq_true_eq, if_pos rfl, if_true]
    rw [Nat.add_comm 1 m, List.take_succ_cons]
    exact List.mem_cons_self 0 _

end Redrock

namespace Redrock

/-- Every row of the trimmed table is a row of the table before trimming. -/
theorem trimRows_subset (nminima : ℕ) (rows : List ZRow) :
    ∀ r ∈ trimRows nminima rows, r ∈ rows := by
  intro r hr
  unfold trimRows at hr
  by_cases h : (keepIndices nminima rows).length < rows.length
  · rw [if_pos h, List.mem_insertionSort] at hr
    obtain ⟨i, _, hget⟩ := List.mem_filterMap.mp hr
    exact List.getElem?_mem hget
  · rwa [if_neg h] at hr

/-- Trimming never removes the head of the sorted table. -/
theorem head_mem_trimRows (nminima : ℕ) (rows : List ZRow)
    (hmin : 1 ≤ nminima) (hne : rows ≠ []) :
    rows.head hne ∈ trimRows nminima rows := by
  unfold trimRows
  by_cases h : (keepIndices nminima rows).length < rows.length
  · rw [if_pos h, List.mem_insertionSort]
    refine List.mem_filterMap.mpr ⟨0, zero_mem_keepIndices nminima rows hmin hne, ?_⟩
    obtain ⟨r0, rest, rfl⟩ := List.exists_cons_of_ne_nil hne
    simp
  · rw [if_neg h]
    exact List.head_mem hne

/-- The trimmed table is sorted by chi2 whenever its input was. -/
theorem sorted_trimRows (nminima : ℕ) (rows : List ZRow)
    (h : List.Sorted chi2le rows) : List.Sorted chi2le (trimRows nminima rows) := by
  unfold trimRows
  by_cases hlt : (keepIndices nminima rows).length < rows.length
  · rw [if_pos hlt]
    exact List.sorted_insertionSort chi2le _
  · rwa [if_neg hlt]

/-- The trimmed table has at most `nminima` rows per distinct spectype of its
input. -/
theorem length_trimRows_le (nminima : ℕ) (rows : List ZRow) :
    (trimRows nminima rows).length ≤
      nminima * (rows.map ZRow.spectype).dedup.length := by
  unfold trimRows
  by_cases hlt : (keepIndices nminima rows).length < rows.length
  · rw [if_pos hlt]
    calc (List.insertionSort chi2le
          ((keepIndices nminima rows).filterMap (fun i => rows[i]?))).length
        = ((keepIndices nminima rows).filterMap (fun i => rows[i]?)).length :=
          (List.perm_insertionSort chi2le _).length_eq
      _ ≤ (keepIndices nminima rows).length := List.length_filterMap_le _ _
      _ ≤ nminima * (rows.map ZRow.spectype).dedup.length :=
          keepIndices_length_le nminima rows
  · rw [if_neg hlt]
    exact le_trans (Nat.le_of_not_lt hlt) (keepIndices_length_le nminima rows)

/-- In a chi2-sorted table the head row has the smallest chi2. -/
theorem head_chi2_le_of_sorted (l : List ZRow) (hs : List.Sorted chi2le l)
    (hne : l ≠ []) : ∀ r ∈ l, (l.head hne).chi2 ≤ r.chi2 := by
  obtain ⟨a, t, rfl⟩ := List.exists_cons_of_ne_nil hne
  intro r hr
  rcases List.mem_cons.mp hr with h | h
  · rw [h]
    simp [List.head_cons]
  · exact List.rel_of_sorted_cons hs r h

end Redrock

namespace Redrock

/-- C1: for every target, after trimming with `nminima ≥ 1`, the ranked
candidate table built by `zfind` (`aggregateTarget`, zfind.py lines 96-135)
has at most `nminima` times as many rows as there are distinct spectypes among
the candidates collected for that target, its chi2 column is sorted ascending,
and its first row attains the globally smallest chi2 across all templates for
that target. -/
theorem aggregateTarget_trim_invariants (tables : List (String × List ZRow))
    (tid nminima : ℕ) (hmin : 1 ≤ nminima) (hne : mergedRows tables ≠ []) :
    (aggregateTarget tables tid nminima).length ≤
      nminima * ((mergedRows tables).map ZRow.spectype).dedup.length ∧
    ((aggregateTarget tables tid nminima).map ZRow.chi2).Sorted (· ≤ ·) ∧
    ∃ h : aggregateTarget tables tid nminima ≠ [],
      ((aggregateTarget tables tid nminima).head h).chi2 ∈
          (mergedRows tables).map ZRow.chi2 ∧
      ∀ c ∈ (mergedRows tables).map ZRow.chi2,
        ((aggregateTarget tables tid nminima).head h).chi2 ≤ c := by
  have hpre_sorted : List.Sorted chi2le (annotate tid (sortedRows tables)) :=
    sorted_annotate tid _ (sorted_sortedRows tables)
  have hchi2_perm := perm_map_chi2_pre tables tid
  have hpre_ne : annotate tid (sortedRows tables) ≠ [] := by
    intro h0
    apply hne
    have := hchi2_perm.length_eq
    rw [h0] at this
    simp only [List.map_nil, List.length_nil, List.length_map] at this
    exact List.eq_nil_of_length_eq_zero this.symm
  have hout_sorted : List.Sorted chi2le (aggregateTarget tables tid nminima) :=
    sorted_trimRows nminima _ hpre_sorted
  have hhead_mem : (annotate tid (sortedRows tables)).head hpre_ne ∈
      aggregateTarget tables tid nminima :=
    head_mem_trimRows nminima _ hmin hpre_ne
  have hout_ne : aggregateTarget tables tid nminima ≠ [] :=
    List.ne_nil_of_mem hhead_mem
  refine ⟨?_, ?_, hout_ne, ?_, ?_⟩
  · calc (aggregateTarget tables tid nminima).length
        ≤ nminima *
          ((annotate tid (sortedRows tables)).map ZRow.spectype).dedup.length :=
          length_trimRows_le nminima _
      _ = nminima * ((mergedRows tables).map ZRow.spectype).dedup.length := by
          rw [(perm_map_spectype_pre tables tid).dedup.length_eq]
  · exact (sorted_chi2_iff _).mp hout_sorted
  · have h1 : (aggregateTarget tables tid nminima).head hout_ne ∈
        annotate tid (sortedRows tables) :=
      trimRows_subset nminima _ _ (List.head_mem hout_ne)
    exact hchi2_perm.mem_iff.mp (List.mem_map.mpr ⟨_, h1, rfl⟩)
  · intro c hc
    have hr0 : ((annotate tid (sortedRows tables)).head hpre_ne).chi2 ≤ c := by
      obtain ⟨r, hr, rfl⟩ := List.mem_map.mp (hchi2_perm.mem_iff.mpr hc)
      exact head_chi2_le_of_sorted _ hpre_sorted hpre_ne r hr
    exact le_trans
      (head_chi2_le_of_sorted _ hout_sorted hout_ne _ hhead_mem) hr0

end Redrock

namespace Redrock

/-- A refined-candidate row as the fit-refinement engine would hand it to
`zfind`: only `z` and `chi2` vary, the aggregation fills the other columns. -/
def sampleRow (zv c2 : ℚ) : ZRow :=
  { z := zv, zerr := 0, chi2 := c2, coeff := [0], zwarn := 0, spectype := "",
    subtype := "", targetid := 0, znum := 0, deltachi2 := 0 }

/-- Two templates (a galaxy one and a star subtype) contributing candidate
rows with chi2 values 1, 2 and 3 for one target. -/
def sampleTables : List (String × List ZRow) :=
  [("GALAXY", [sampleRow 0 1, sampleRow 1 2]), ("STAR:A", [sampleRow 2 3])]

/-- Witness for C1 at a concrete input: `nminima = 2` and the two-template
candidate set `sampleTables`. -/
theorem aggregateTarget_trim_invariants_witness :
    1 ≤ 2 ∧ mergedRows sampleTables ≠ [] ∧
    ((aggregateTarget sampleTables 7 2).length ≤
      2 * ((mergedRows sampleTables).map ZRow.spectype).dedup.length ∧
    ((aggregateTarget sampleTables 7 2).map ZRow.chi2).Sorted (· ≤ ·) ∧
    ∃ h : aggregateTarget sampleTables 7 2 ≠ [],
      ((aggregateTarget sampleTables 7 2).head h).chi2 ∈
          (mergedRows sampleTables).map ZRow.chi2 ∧
      ∀ c ∈ (mergedRows sampleTables).map ZRow.chi2,
        ((aggregateTarget sampleTables 7 2).head h).chi2 ≤ c) :=
  ⟨by norm_num, by decide,
   aggregateTarget_trim_invariants sampleTables 7 2 (by norm_num) (by decide)⟩

end Redrock

namespace Redrock

/-- Position `i` of the annotated table is position `i` of its input with
`znum = s + i` and `deltachi2` the forward chi2 difference (0 at the end). -/
theorem annotateFrom_getElem? (tid s : ℕ) (l : List ZRow) (i : ℕ) :
    (annotateFrom tid s l)[i]? = (l[i]?).map (fun r =>
      setRow tid (s + i)
        (match l[i + 1]? with
          | some r2 => r2.chi2 - r.chi2
          | none => 0) r) := by
  induction l generalizing s i with
  | nil => simp [annotateFrom]
  | cons r rest ih =>
    cases i with
    | zero =>
      simp only [annotateFrom, List.getElem?_cons_zero, Nat.add_zero,
        List.getElem?_cons_succ]
      rw [List.head?_eq_getElem?]
      rfl
    | succ j =>
      simp only [annotateFrom, List.getElem?_cons_succ]
      rw [ih (s + 1) j]
      have : s + (j + 1) = s + 1 + j := by omega
      rw [this]

/-- C2, amended: `znum` and `deltachi2` are assigned on the sorted merged
table before trimming — `znum` is the pre-trim rank and `deltachi2` the
pre-trim forward chi2 difference (0 for the last pre-trim row) — and the
rows of the final table are rows of that pre-trim table, carrying those values
unchanged (zfind.py lines 117-133; the columns are not recomputed after the
trim of lines 124-133). -/
theorem aggregateTarget_znum_deltachi2 (tables : List (String × List ZRow))
    (tid nminima : ℕ) :
    (∀ r ∈ aggregateTarget tables tid nminima,
      r ∈ annotate tid (sortedRows tables)) ∧
    (∀ i : ℕ, ∀ r : ZRow, (annotate tid (sortedRows tables))[i]? = some r →
      r.znum = i ∧
      r.deltachi2 = (match (annotate tid (sortedRows tables))[i + 1]? with
        | some r2 => r2.chi2 - r.chi2
        | none => 0)) := by
  constructor
  · exact fun r hr => trimRows_subset nminima _ r hr
  · intro i r hr
    unfold annotate at hr ⊢
    rw [annotateFrom_getElem? tid 0 _ i] at hr
    rcases h0 : (sortedRows tables)[i]? with _ | r0
    · rw [h0] at hr
      exact absurd hr (by simp)
    · rw [h0] at hr
      have hr2 : r = setRow tid (0 + i)
          (match (sortedRows tables)[i + 1]? with
            | some r2 => r2.chi2 - r0.chi2
            | none => 0) r0 := by
        have := hr
        simp only [Option.map] at this
        exact (Option.some_inj.mp this).symm
      subst hr2
      refine ⟨by simp [setRow], ?_⟩
      rw [annotateFrom_getElem? tid 0 _ (i + 1)]
      rcases h1 : (sortedRows tables)[i + 1]? with _ | r1 <;> simp [setRow]

/-- Counterexample to C2 as stated: with `nminima = 1` and `sampleTables`
(chi2 values 1, 2 from GALAXY and 3 from STAR:A), trimming removes the
middle row, and in the final two-row table row 1 carries `znum = 2` (its
pre-trim rank), not 1, and row 0 carries `deltachi2 = 1` (its pre-trim
forward difference), not `chi2[1] - chi2[0] = 2`. -/
theorem aggregateTarget_znum_counterexample :
    (aggregateTarget sampleTables 7 1).map ZRow.chi2 = [1, 3] ∧
    (aggregateTarget sampleTables 7 1).map ZRow.znum = [0, 2] ∧
    (aggregateTarget sampleTables 7 1).map ZRow.deltachi2 = [1, 0] := by
  refine ⟨?_, ?_, ?_⟩ <;> with_unfolding_all rfl

end Redrock

namespace Redrock

/-- The merged table of one target with chi2 values `[5, 5, 9, 10]`, the rows made
distinguishable through their `z` column, all warning masks initially 0. -/
def tieTables : List (String × List ZRow) :=
  [("T", [sampleRow 0 5, sampleRow 1 5, sampleRow 2 9, sampleRow 3 10])]

/-- Counterexample to C3 as stated: row 1 of the sorted annotated table has
`deltachi2 = 4 < 9`, so the code sets the small-delta-chi2 bit there as well —
the bit is not confined to rows 0, 2 and 3. -/
theorem small_delta_chi2_row1_counterexample :
    ((annotate 0 (sortedRows tieTables))[1]?).map ZRow.deltachi2 = some 4 ∧
    ((annotate 0 (sortedRows tieTables))[1]?).map ZRow.zwarn =
      some SMALL_DELTA_CHI2 := by
  constructor <;> with_unfolding_all rfl

/-- C3, amended: for chi2 values `[5, 5, 9, 10]`, sorting is stable (the row
order, tracked through `z`, is unchanged), `deltachi2 = [0, 4, 1, 0]`, and the
small-delta-chi2 bit is set exactly on the rows with `deltachi2 < 9` — which
here is every row (0, 1, 2 and 3), since 4 < 9 too (zfind.py lines 117-122). -/
theorem small_delta_chi2_flags :
    (annotate 0 (sortedRows tieTables)).map ZRow.z = [0, 1, 2, 3] ∧
    (annotate 0 (sortedRows tieTables)).map ZRow.chi2 = [5, 5, 9, 10] ∧
    (annotate 0 (sortedRows tieTables)).map ZRow.deltachi2 = [0, 4, 1, 0] ∧
    (annotate 0 (sortedRows tieTables)).map
        (fun r => decide (r.deltachi2 < 9)) = [true, true, true, true] ∧
    (annotate 0 (sortedRows tieTables)).map ZRow.zwarn =
      [SMALL_DELTA_CHI2, SMALL_DELTA_CHI2, SMALL_DELTA_CHI2, SMALL_DELTA_CHI2] := by
  refine ⟨?_, ?_, ?_, ?_, ?_⟩ <;> with_unfolding_all rfl

end Redrock

namespace Redrock

/-- A target: the pipeline only reads its unique id; the spectral data is
consumed opaquely by the external engines. -/
structure Target where
  id : ℕ
deriving DecidableEq, Inhabited, Repr

/-- A template as `zfind` uses it: its fulltype tag and its redshift grid. -/
structure Template where
  fulltype : String
  redshifts : List ℚ
deriving DecidableEq, Inhabited, Repr

/-- The type of the external chi2-scan engine (`redrock.zscan`): per target it
returns the zchi2, zcoeff and penalty arrays, or raises. -/
abbrev CalcEngine (E : Type) : Type :=
  List ℚ → List Target → Template →
    Except E (List (List ℚ) × List (List (List ℚ)) × List (List ℚ))

/-- The type of the external fit-refinement engine (`redrock.fitz`): from the
combined `zchi2 + penalty` arrays it returns one refined-candidate table per
target. -/
abbrev FitzEngine : Type :=
  List (List ℚ) → List ℚ → List Target → Template → ℕ → List (List ZRow)

/-- Embedding of `_wrap_calc_zchi2` (zfind.py lines 12-22): the result of the
scan engine together with the lines printed on failure; an exception is
logged and re-raised unchanged. -/
def wrap_calc_zchi2 {E A : Type} (res : Except E A) : Except E A × List String :=
  match res with
  | .ok v => (.ok v, [])
  | .error e => (.error e,
      ["ERROR: calc_zchi2_targets raised exception; original traceback:",
       "...propagating exception upwards"])

/-- The per-(target, fulltype) slot of the nested `zscan` dictionary
(zfind.py lines 80-86): the key `zfit` may be deleted later (line 107), so it
is optional; the other four keys are always present once the template has been
scanned. -/
structure ScanEntry where
  zfit : Option (List ZRow)
  redshifts : List ℚ
  zchi2 : List ℚ
  penalty : List ℚ
  zcoeff : List (List ℚ)
deriving DecidableEq, Inhabited, Repr

/-- The dictionary keys of a scan slot, in insertion order (zfind.py lines
80-86): `zfit` first when present, then the four array fields. -/
def ScanEntry.keys (e : ScanEntry) : List String :=
  (if e.zfit.isSome then ["zfit"] else []) ++
    ["redshifts", "zchi2", "penalty", "zcoeff"]

/-- The per-template data of zfind.py lines 64-88: the template, its raw scan
arrays, and the refined-candidate tables (one per target) computed by the
fit-refinement engine from `zchi2 + penalty`. -/
structure ScanData where
  t : Template
  zchi2 : List (List ℚ)
  zcoeff : List (List (List ℚ))
  penalty : List (List ℚ)
  zfit : List (List ZRow)
deriving DecidableEq, Inhabited, Repr

/-- Sequential effectful map: the template loop of zfind.py runs templates
strictly in order and the first raised exception aborts the whole run. -/
def mapExcept {E A B : Type} (f : A → Except E B) : List A → Except E (List B)
  | [] => .ok []
  | a :: l =>
      match f a with
      | .error e => .error e
      | .ok b =>
          match mapExcept f l with
          | .error e => .error e
          | .ok bs => .ok (b :: bs)

/-- One iteration of the template loop (zfind.py lines 64-88): run the scan
engine through the wrapper, combine `zchi2 + penalty` elementwise, and run the
fit-refinement engine on the combined array. -/
def scanTemplate {E : Type} (targets : List Target) (calc_zchi2 : CalcEngine E)
    (fitz : FitzEngine) (nminima : ℕ) (t : Template) : Except E ScanData :=
  match (wrap_calc_zchi2 (calc_zchi2 t.redshifts targets t)).1 with
  | .error e => .error e
  | .ok (zchi2, zcoeff, penalty) =>
      .ok { t := t, zchi2 := zchi2, zcoeff := zcoeff, penalty := penalty,
            zfit := fitz (List.zipWith (List.zipWith (· + ·)) zchi2 penalty)
              t.redshifts targets t nminima }

/-- The nested scan structure `results[targetid][templatetype]`. -/
abbrev ZScan : Type := List (ℕ × List (String × ScanEntry))

/-- Embedding of `zfind` (zfind.py lines 24-141). For each template the scan
engine and the fit-refinement engine run (aborting on the first exception);
the nested `zscan` structure is filled per (target id, fulltype) with `zfit`,
`redshifts`, `zchi2`, `penalty` and `zcoeff` (lines 80-86); the aggregation of
lines 94-135 then builds the ranked table per target, deleting the `zfit` slot
from the nested structure (line 107); the per-target tables are concatenated
into `zfit` (line 137) and both structures are returned (line 141). -/
def zfind {E : Type} (targets : List Target) (templates : List Template)
    (calc_zchi2 : CalcEngine E) (fitz : FitzEngine) (nminima : ℕ) :
    Except E (ZScan × List ZRow) :=
  match mapExcept (scanTemplate targets calc_zchi2 fitz nminima) templates with
  | .error e => .error e
  | .ok per =>
      let zscanFull : ZScan :=
        (List.range targets.length).map (fun i =>
          ((targets.getD i default).id,
           per.map (fun d => (d.t.fulltype,
             { zfit := some (d.zfit.getD i []),
               redshifts := d.t.redshifts,
               zchi2 := d.zchi2.getD i [],
               penalty := d.penalty.getD i [],
               zcoeff := d.zcoeff.getD i [] }))))
      let zall := (zscanFull.map (fun p =>
          aggregateTarget (p.2.map (fun q => (q.1, (q.2.zfit).getD []))) p.1
            nminima)).flatten
      .ok (zscanFull.map (fun p =>
          (p.1, p.2.map (fun q => (q.1, { q.2 with zfit := none })))), zall)

end Redrock

namespace Redrock

/-- Every element produced by a successful sequential map comes from applying
`f` successfully to an element of the input list. -/
theorem mapExcept_ok_mem {E A B : Type} (f : A → Except E B) (l : List A)
    (ys : List B) (h : mapExcept f l = .ok ys) :
    ∀ y ∈ ys, ∃ a ∈ l, f a = .ok y := by
  induction l generalizing ys with
  | nil =>
    simp only [mapExcept, Except.ok.injEq] at h
    subst h
    simp
  | cons a rest ih =>
    intro y hy
    rcases hfa : f a with e | b
    · rw [mapExcept, hfa] at h
      exact absurd h (by simp)
    · rw [mapExcept, hfa] at h
      rcases hrest : mapExcept f rest with e | bs
      · rw [hrest] at h
        exact absurd h (by simp)
      · rw [hrest] at h
        simp only [Except.ok.injEq] at h
        subst h
        rcases List.mem_cons.mp hy with h1 | h1
        · exact ⟨a, List.mem_cons_self a rest, by rw [hfa, h1]⟩
        · obtain ⟨a2, ha2, hfa2⟩ := ih bs hrest y h1
          exact ⟨a2, List.mem_cons_of_mem a ha2, hfa2⟩

/-- A successful template scan keeps the template it was given. -/
theorem scanTemplate_ok_template {E : Type} (targets : List Target)
    (calc_zchi2 : CalcEngine E) (fitz : FitzEngine) (nminima : ℕ)
    (t : Template) (d : ScanData)
    (h : scanTemplate targets calc_zchi2 fitz nminima t = .ok d) : d.t = t := by
  unfold scanTemplate at h
  rcases hc : calc_zchi2 t.redshifts targets t with e | trip
  · rw [hc] at h
    exact absurd h (by simp [wrap_calc_zchi2])
  · rw [hc] at h
    simp only [wrap_calc_zchi2, Except.ok.injEq] at h
    rw [← h]

/-- A template whose scan succeeds never aborts `scanTemplate`. -/
theorem scanTemplate_ok_of_calc_ok {E : Type} (targets : List Target)
    (calc_zchi2 : CalcEngine E) (fitz : FitzEngine) (nminima : ℕ)
    (t : Template)
    (h : ∃ v, calc_zchi2 t.redshifts targets t = .ok v) :
    ∃ d, scanTemplate targets calc_zchi2 fitz nminima t = .ok d := by
  obtain ⟨⟨zchi2, zcoeff, penalty⟩, hv⟩ := h
  exact ⟨_, by rw [scanTemplate, hv]; rfl⟩

end Redrock

namespace Redrock

/-- C9, amended: in the nested scan structure `zfind` returns, every
(target id, template fulltype) entry holds exactly the keys `redshifts`,
`zchi2`, `penalty` and `zcoeff` — the refined candidate table (`zfit`) was
stored during the scan (zfind.py line 80) but deleted again during
aggregation (line 107), so it is absent from the returned structure — and the
fulltype and redshift grid of each entry are those of one of the scanned
templates. -/
theorem zfind_scan_entries {E : Type} (targets : List Target)
    (templates : List Template) (calc_zchi2 : CalcEngine E)
    (fitz : FitzEngine) (nminima : ℕ) (zscan : ZScan) (zall : List ZRow)
    (h : zfind targets templates calc_zchi2 fitz nminima = .ok (zscan, zall)) :
    ∀ p ∈ zscan, ∀ q ∈ p.2,
      q.2.zfit = none ∧
      ScanEntry.keys q.2 = ["redshifts", "zchi2", "penalty", "zcoeff"] ∧
      ∃ t ∈ templates, t.fulltype = q.1 ∧ q.2.redshifts = t.redshifts := by
  unfold zfind at h
  rcases hm : mapExcept (scanTemplate targets calc_zchi2 fitz nminima) templates
    with e | per
  · rw [hm] at h
    exact absurd h (by simp)
  · rw [hm] at h
    simp only [Except.ok.injEq, Prod.mk.injEq] at h
    obtain ⟨hzscan, _⟩ := h
    intro p hp q hq
    rw [← hzscan] at hp
    obtain ⟨p0, hp0, rfl⟩ := List.mem_map.mp hp
    obtain ⟨i, _, rfl⟩ := List.mem_map.mp hp0
    obtain ⟨q0, hq0, rfl⟩ := List.mem_map.mp hq
    obtain ⟨d, hd, rfl⟩ := List.mem_map.mp hq0
    refine ⟨rfl, by simp [ScanEntry.keys], ?_⟩
    obtain ⟨t, ht, hok⟩ := mapExcept_ok_mem _ templates per hm d hd
    refine ⟨t, ht, ?_, ?_⟩
    · rw [← scanTemplate_ok_template targets calc_zchi2 fitz nminima t d hok]
    · rw [← scanTemplate_ok_template targets calc_zchi2 fitz nminima t d hok]

end Redrock

namespace Redrock

/-- Aborting the whole template loop: when every template before `t` scans
successfully and the engine raises `e` on `t`, the sequential map raises `e`. -/
theorem mapExcept_scan_error {E : Type} (targets : List Target)
    (calc_zchi2 : CalcEngine E) (fitz : FitzEngine) (nminima : ℕ)
    (pre post : List Template) (t : Template) (e : E)
    (hok : ∀ t2 ∈ pre, ∃ v, calc_zchi2 t2.redshifts targets t2 = .ok v)
    (hfail : calc_zchi2 t.redshifts targets t = .error e) :
    mapExcept (scanTemplate targets calc_zchi2 fitz nminima)
      (pre ++ t :: post) = .error e := by
  have hscan_fail : scanTemplate targets calc_zchi2 fitz nminima t = .error e := by
    rw [scanTemplate, hfail]
    rfl
  induction pre with
  | nil =>
    rw [List.nil_append, mapExcept, hscan_fail]
  | cons a rest ih =>
    rw [List.cons_append, mapExcept]
    obtain ⟨d, hd⟩ := scanTemplate_ok_of_calc_ok targets calc_zchi2 fitz nminima a
      (hok a (List.mem_cons_self a rest))
    rw [hd, ih (fun t2 h2 => hok t2 (List.mem_cons_of_mem a h2))]

/-- C8: an exception `e` raised by the chi2-scan engine is re-raised by the
wrapper unchanged together with a non-empty log (zfind.py lines 12-22), and
the top-level `zfind` call raises the same `e` — returning no nested results
structure — provided the templates scanned before the failing one succeeded
(the loop runs templates in order and stops at the first failure). -/
theorem zfind_worker_error_reraised {E : Type} (targets : List Target)
    (pre post : List Template) (t : Template) (calc_zchi2 : CalcEngine E)
    (fitz : FitzEngine) (nminima : ℕ) (e : E)
    (hok : ∀ t2 ∈ pre, ∃ v, calc_zchi2 t2.redshifts targets t2 = .ok v)
    (hfail : calc_zchi2 t.redshifts targets t = .error e) :
    (wrap_calc_zchi2 (calc_zchi2 t.redshifts targets t)).1 = .error e ∧
    (wrap_calc_zchi2 (calc_zchi2 t.redshifts targets t)).2 ≠ [] ∧
    zfind targets (pre ++ t :: post) calc_zchi2 fitz nminima = .error e := by
  refine ⟨by rw [hfail]; rfl, by rw [hfail]; simp [wrap_calc_zchi2], ?_⟩
  rw [zfind, mapExcept_scan_error targets calc_zchi2 fitz nminima pre post t e
    hok hfail]

/-- One concrete target list for the `zfind` examples. -/
def cTargets : List Target := [{ id := 5 }]

/-- One concrete galaxy template for the `zfind` examples. -/
def cTemplate : Template := { fulltype := "GALAXY", redshifts := [1/2] }

def cTemplates : List Template := [cTemplate]

/-- A scan engine that always raises. -/
def cFailCalc : CalcEngine String := fun _ _ _ => .error "boom"

/-- A fit-refinement engine returning one single-row table for the target. -/
def cFitz : FitzEngine := fun _ _ _ _ _ => [[sampleRow 0 10]]

/-- Witness for C8 at a concrete input: a single template whose scan raises
the string exception `boom`. -/
theorem zfind_worker_error_reraised_witness :
    (∀ t2 ∈ ([] : List Template), ∃ v,
      cFailCalc t2.redshifts cTargets t2 = .ok v) ∧
    cFailCalc cTemplate.redshifts cTargets cTemplate = .error "boom" ∧
    ((wrap_calc_zchi2 (cFailCalc cTemplate.redshifts cTargets cTemplate)).1 =
        .error "boom" ∧
      (wrap_calc_zchi2 (cFailCalc cTemplate.redshifts cTargets cTemplate)).2 ≠ [] ∧
      zfind cTargets ([] ++ cTemplate :: []) cFailCalc cFitz 3 =
        .error "boom") :=
  ⟨by simp, rfl,
   zfind_worker_error_reraised cTargets [] [] cTemplate cFailCalc cFitz 3
     "boom" (by simp) rfl⟩

end Redrock

namespace Redrock

/-- A scan engine returning fixed arrays for the single target. -/
def cCalc : CalcEngine String := fun _ _ _ => .ok ([[10]], [[[1]]], [[0]])

/-- The scan slot `zfind` returns for (target 5, GALAXY) on the concrete run:
the `zfit` key is gone, the four array keys remain. -/
def cEntry : ScanEntry :=
  { zfit := none, redshifts := [1/2], zchi2 := [10], penalty := [0],
    zcoeff := [[1]] }

def cZscan : ZScan := [(5, [("GALAXY", cEntry)])]

/-- The ranked table of the concrete run: one row, tagged GALAXY, with the
small-delta-chi2 bit set (its deltachi2 is 0). -/
def cZall : List ZRow :=
  [{ z := 0, zerr := 0, chi2 := 10, coeff := [0], zwarn := 4,
     spectype := "GALAXY", subtype := "", targetid := 5, znum := 0,
     deltachi2 := 0 }]

/-- Counterexample to C9 as stated: on a concrete successful run the nested
structure returned by `zfind` holds `zfit = none` — the refined candidate
table is NOT contained in the returned entry (it was deleted at zfind.py line
107); only `redshifts`, `zchi2`, `penalty` and `zcoeff` remain. -/
theorem zfind_zfit_removed_counterexample :
    zfind cTargets cTemplates cCalc cFitz 3 = .ok (cZscan, cZall) ∧
    cEntry.zfit = none ∧
    cEntry.keys = ["redshifts", "zchi2", "penalty", "zcoeff"] ∧
    ¬ "zfit" ∈ cEntry.keys := by
  refine ⟨by with_unfolding_all rfl, rfl, rfl, by decide⟩

/-- Witness for C9 (amended) at the concrete run `cTargets`/`cTemplates`. -/
theorem zfind_scan_entries_witness :
    zfind cTargets cTemplates cCalc cFitz 3 = .ok (cZscan, cZall) ∧
    (∀ p ∈ cZscan, ∀ q ∈ p.2,
      q.2.zfit = none ∧
      ScanEntry.keys q.2 = ["redshifts", "zchi2", "penalty", "zcoeff"] ∧
      ∃ t ∈ cTemplates, t.fulltype = q.1 ∧ q.2.redshifts = t.redshifts) :=
  ⟨by with_unfolding_all rfl,
   zfind_scan_entries cTargets cTemplates cCalc cFitz 3 cZscan cZall
     (by with_unfolding_all rfl)⟩

end Redrock

namespace Redrock

/-- The Python exception kinds the template loader can raise while resolving
its file (io.py lines 46-53). -/
inductive PyError where
  | typeError : String → PyError
  | ioError : String → PyError
deriving DecidableEq, Repr

/-- Embedding of `os.path.join(d, name)` for a directory without a trailing
separator and a relative name — the only shape the loader builds. -/
def pathJoin (d name : String) : String := d ++ "/" ++ name

/-- Embedding of the file-resolution step of `read_template` (io.py lines
46-53). `pathExists` stands for `os.path.exists` and `env` for
`os.getenv("RR_TEMPLATE_DIR")`. When the literal path is missing and the
variable is unset, `os.path.join(None, filename)` raises `TypeError` before
any IOError can be built; the `unable to find` IOError needs the joined
fallback path to be missing too. -/
def read_template_path (pathExists : String → Bool) (env : Option String)
    (filename : String) : Except PyError String :=
  if pathExists filename then .ok filename
  else
    match env with
    | none => .error (.typeError
        "expected str, bytes or os.PathLike object, not NoneType")
    | some d =>
        if pathExists (pathJoin d filename) then .ok (pathJoin d filename)
        else .error (.ioError ("unable to find " ++ filename))

/-- C10: when the filename does not exist literally and RR_TEMPLATE_DIR is
unset, `read_template` raises `TypeError` (from joining None with the name,
io.py line 49), not the NotFound-style IOError; and the
`IOError("unable to find ...")` occurs only when the variable is set and the
joined fallback path is missing as well (io.py lines 50-53). -/
theorem read_template_path_unset_env (pathExists : String → Bool)
    (env : Option String) (filename : String) :
    (pathExists filename = false → env = none →
      read_template_path pathExists env filename = .error (.typeError
        "expected str, bytes or os.PathLike object, not NoneType")) ∧
    (∀ m, read_template_path pathExists env filename = .error (.ioError m) →
      pathExists filename = false ∧
      ∃ d, env = some d ∧ pathExists (pathJoin d filename) = false ∧
        m = "unable to find " ++ filename) := by
  constructor
  · intro hmiss henv
    subst henv
    unfold read_template_path
    rw [if_neg (by simp [hmiss])]
  · intro m hm
    by_cases hex : pathExists filename
    · unfold read_template_path at hm
      rw [if_pos hex] at hm
      exact absurd hm (by simp)
    · rcases henv : env with _ | d
      · subst henv
        unfold read_template_path at hm
        rw [if_neg (by simp [hex])] at hm
        exact absurd hm (by simp)
      · subst henv
        unfold read_template_path at hm
        rw [if_neg (by simp [hex])] at hm
        by_cases hex2 : pathExists (pathJoin d filename)
        · rw [show (match (some d : Option String) with
              | none => (Except.error (PyError.typeError
                  "expected str, bytes or os.PathLike object, not NoneType") :
                    Except PyError String)
              | some d =>
                if pathExists (pathJoin d filename) = true then
                  Except.ok (pathJoin d filename)
                else Except.error (PyError.ioError
                  ("unable to find " ++ filename))) =
              if pathExists (pathJoin d filename) = true then
                Except.ok (pathJoin d filename)
              else Except.error (PyError.ioError
                ("unable to find " ++ filename)) from rfl,
            if_pos hex2] at hm
          exact absurd hm (by simp)
        · rw [show (match (some d : Option String) with
              | none => (Except.error (PyError.typeError
                  "expected str, bytes or os.PathLike object, not NoneType") :
                    Except PyError String)
              | some d =>
                if pathExists (pathJoin d filename) = true then
                  Except.ok (pathJoin d filename)
                else Except.error (PyError.ioError
                  ("unable to find " ++ filename))) =
              if pathExists (pathJoin d filename) = true then
                Except.ok (pathJoin d filename)
              else Except.error (PyError.ioError
                ("unable to find " ++ filename)) from rfl,
            if_neg hex2] at hm
          simp only [Except.error.injEq, PyError.ioError.injEq] at hm
          exact ⟨by simp [hex], d, rfl, by simp [hex2], hm.symm⟩

/-- The three spectral classes with a defined redshift-scan rule
(io.py lines 62-70). -/
inductive SpectralClass where
  | galaxy
  | star
  | qso
deriving DecidableEq, Repr

/-- The dispatch on `hdr['RRTYPE'].strip().upper()` of io.py lines 62-70:
the class whose redshift grid rule applies, or the ValueError for an unknown
tag. -/
def classifyRRType (rrtype : String) : Except String SpectralClass :=
  if rrtype = "GALAXY" then .ok .galaxy
  else if rrtype = "STAR" then .ok .star
  else if rrtype = "QSO" then .ok .qso
  else .error ("Unknown redshift range to use for template type " ++ rrtype)

/-- The type dispatch of `read_template` applied to the raw header tag:
stripping and upper-casing first (io.py line 62). -/
def read_template_class (raw : String) : Except String SpectralClass :=
  classifyRRType raw.trim.toUpper

/-- C6: `read_template` raises the UnknownSpectralType error exactly for the
tags that are not GALAXY, STAR or QSO after stripping and upper-casing, and
resolves a class without that error exactly for those three. -/
theorem read_template_class_ok_iff (raw : String) :
    ((∃ c, read_template_class raw = .ok c) ↔
      (raw.trim.toUpper = "GALAXY" ∨ raw.trim.toUpper = "STAR" ∨
        raw.trim.toUpper = "QSO")) ∧
    ((∃ m, read_template_class raw = .error m) ↔
      ¬ (raw.trim.toUpper = "GALAXY" ∨ raw.trim.toUpper = "STAR" ∨
        raw.trim.toUpper = "QSO")) := by
  unfold read_template_class classifyRRType
  by_cases h1 : raw.trim.toUpper = "GALAXY" <;>
    by_cases h2 : raw.trim.toUpper = "STAR" <;>
      by_cases h3 : raw.trim.toUpper = "QSO" <;>
        simp [h1, h2, h3]

end Redrock

namespace Redrock

/-- Embedding of `find_templates` (io.py lines 74-95). `template_dir` is the
explicit argument, `env` the value of RR_TEMPLATE_DIR when set,
`installSubdirExists` whether `{thisdir}/templates` exists, and `glob` the
filesystem glob. The resolution order is argument, environment variable,
installation-relative default; when none resolves the IOError is raised
(line 93); otherwise the glob result is returned as-is — even when it is
empty (line 95). The error message is paraphrased: the original contains
characters that this embedding keeps out of its string literals. -/
def find_templates (template_dir env : Option String)
    (installSubdirExists : Bool) (thisdir : String)
    (glob : String → List String) : Except String (List String) :=
  let td : Option String :=
    match template_dir with
    | some d => some d
    | none =>
        match env with
        | some d => some d
        | none =>
            if installSubdirExists then some (pathJoin thisdir "templates")
            else none
  match td with
  | none => .error
      "ERROR: cannot find template_dir, RR_TEMPLATE_DIR, or rrcode templates"
  | some d => .ok (glob (pathJoin d "rrtemplate-*.fits"))

/-- Counterexample to C7 as stated: with a resolved template directory whose
glob matches zero files, `find_templates` does not raise — it returns the
empty list (io.py line 95; the zero-templates IOError lives in
`read_templates`, line 115, not in `find_templates`). -/
theorem find_templates_empty_glob_counterexample :
    find_templates (some "/tmpl") none false "/code" (fun _ => []) =
      .ok ([] : List String) := rfl

/-- C7, amended: `find_templates` raises its NotFound-style IOError exactly
when no directory resolves from the argument, the environment variable or the
installation default; whenever a directory resolves, the glob result is
returned even when it has zero entries (the zero-templates error is raised
later by `read_templates`). -/
theorem find_templates_error_iff (template_dir env : Option String)
    (installSubdirExists : Bool) (thisdir : String)
    (glob : String → List String) :
    ((∃ m, find_templates template_dir env installSubdirExists thisdir glob =
        .error m) ↔
      (template_dir = none ∧ env = none ∧ installSubdirExists = false)) ∧
    (∀ d, template_dir = some d →
      find_templates template_dir env installSubdirExists thisdir glob =
        .ok (glob (pathJoin d "rrtemplate-*.fits"))) := by
  constructor
  · rcases template_dir with _ | d
    · rcases env with _ | d2
      · by_cases hi : installSubdirExists
        · simp [find_templates, hi]
        · simp [find_templates, hi]
      · simp [find_templates]
    · simp [find_templates]
  · intro d hd
    subst hd
    rfl

end Redrock

namespace Redrock

/-- Embedding of `numpy.arange(start, stop, step)` over the reals: the k-th
grid point. The grid arithmetic of io.py lines 63-68 is done in floating
point; the verified statements concern its exact real-valued counterpart. -/
noncomputable def arange (start step : ℝ) (k : ℕ) : ℝ := start + k * step

/-- The number of points `numpy.arange(start, stop, step)` generates for a
positive step: the smallest count whose next point would reach `stop`. -/
noncomputable def arangeLen (start stop step : ℝ) : ℕ := ⌈(stop - start) / step⌉₊

/-- Base-10 logarithm, as `numpy.log10`. -/
noncomputable def log10 (x : ℝ) : ℝ := Real.logb 10 x

/-- The galaxy grid of io.py line 64: `10**np.arange(np.log10(0.1),
np.log10(2.0), 4e-4)`. -/
noncomputable def galaxyRedshifts (k : ℕ) : ℝ :=
  (10 : ℝ) ^ arange (log10 0.1) 0.0004 k

noncomputable def galaxyZLen : ℕ := arangeLen (log10 0.1) (log10 2.0) 0.0004

/-- The star grid of io.py line 66: `np.arange(-0.001, 0.00101, 0.0001)`. -/
noncomputable def starRedshifts (k : ℕ) : ℝ := arange (-0.001) 0.0001 k

noncomputable def starZLen : ℕ := arangeLen (-0.001) 0.00101 0.0001

/-- The quasar grid of io.py line 68: `10**np.arange(np.log10(0.5),
np.log10(4.0), 5e-4)`. -/
noncomputable def qsoRedshifts (k : ℕ) : ℝ :=
  (10 : ℝ) ^ arange (log10 0.5) 0.0005 k

noncomputable def qsoZLen : ℕ := arangeLen (log10 0.5) (log10 4.0) 0.0005

/-- The per-class grid rule `read_template` dispatches to (io.py 62-70). -/
noncomputable def classRedshifts : SpectralClass → ℕ → ℝ
  | .galaxy => galaxyRedshifts
  | .star => starRedshifts
  | .qso => qsoRedshifts

noncomputable def classZLen : SpectralClass → ℕ
  | .galaxy => galaxyZLen
  | .star => starZLen
  | .qso => qsoZLen

theorem arange_zero (start step : ℝ) : arange start step 0 = start := by
  simp [arange]

theorem arange_strictMono (start step : ℝ) (hstep : 0 < step) :
    StrictMono (arange start step) := by
  apply strictMono_nat_of_lt_succ
  intro k
  unfold arange
  have : (k : ℝ) * step < (k + 1 : ℕ) * step := by
    apply mul_lt_mul_of_pos_right _ hstep
    push_cast
    linarith
  linarith

theorem arangeLen_pos (start stop step : ℝ) (h : start < stop)
    (hstep : 0 < step) : 1 ≤ arangeLen start stop step := by
  unfold arangeLen
  exact Nat.ceil_pos.mpr (div_pos (sub_pos.mpr h) hstep)

/-- The last arange point stays strictly below the upper bound. -/
theorem arange_last_lt (start stop step : ℝ) (h : start < stop)
    (hstep : 0 < step) :
    arange start step (arangeLen start stop step - 1) < stop := by
  have hx : 0 < (stop - start) / step := div_pos (sub_pos.mpr h) hstep
  have hlen := arangeLen_pos start stop step h hstep
  have hceil : ((arangeLen start stop step : ℕ) : ℝ) <
      (stop - start) / step + 1 := by
    unfold arangeLen
    exact Nat.ceil_lt_add_one hx.le
  have hcast : ((arangeLen start stop step - 1 : ℕ) : ℝ) =
      ((arangeLen start stop step : ℕ) : ℝ) - 1 := by
    rw [Nat.cast_sub hlen]
    norm_num
  have h1 : ((arangeLen start stop step - 1 : ℕ) : ℝ) <
      (stop - start) / step := by
    rw [hcast]
    linarith
  unfold arange
  have h2 : ((arangeLen start stop step - 1 : ℕ) : ℝ) * step <
      (stop - start) / step * step := mul_lt_mul_of_pos_right h1 hstep
  rw [div_mul_cancel₀ _ (ne_of_gt hstep)] at h2
  linarith

theorem log10_point1_lt_log10_two : log10 0.1 < log10 2.0 := by
  unfold log10
  exact Real.logb_lt_logb (by norm_num) (by norm_num) (by norm_num)

theorem log10_half_lt_log10_four : log10 0.5 < log10 4.0 := by
  unfold log10
  exact Real.logb_lt_logb (by norm_num) (by norm_num) (by norm_num)

/-- C5: the per-type redshift grid rule of `read_template` (io.py lines
62-70), read over the reals: every grid is strictly increasing, each grid is
nonempty, its first element is the stated lower bound (for the log-spaced
grids because `10 ** log10 x = x`), and its last element stays strictly below
the stated upper bound. -/
theorem read_template_redshift_grids :
    (galaxyRedshifts 0 = 0.1 ∧ StrictMono galaxyRedshifts ∧
      1 ≤ galaxyZLen ∧ galaxyRedshifts (galaxyZLen - 1) < 2.0) ∧
    (starRedshifts 0 = -0.001 ∧ StrictMono starRedshifts ∧
      1 ≤ starZLen ∧ starRedshifts (starZLen - 1) < 0.00101) ∧
    (qsoRedshifts 0 = 0.5 ∧ StrictMono qsoRedshifts ∧
      1 ≤ qsoZLen ∧ qsoRedshifts (qsoZLen - 1) < 4.0) := by
  have h10 : (1 : ℝ) < 10 := by norm_num
  refine ⟨⟨?_, ?_, ?_, ?_⟩, ⟨?_, ?_, ?_, ?_⟩, ⟨?_, ?_, ?_, ?_⟩⟩
  · unfold galaxyRedshifts
    rw [arange_zero]
    exact Real.rpow_logb (by norm_num) (by norm_num) (by norm_num)
  · intro a b hab
    unfold galaxyRedshifts
    exact (Real.rpow_lt_rpow_left_iff h10).mpr
      (arange_strictMono _ _ (by norm_num) hab)
  · exact arangeLen_pos _ _ _ log10_point1_lt_log10_two (by norm_num)
  · unfold galaxyRedshifts galaxyZLen
    calc (10 : ℝ) ^ arange (log10 0.1) 0.0004
          (arangeLen (log10 0.1) (log10 2.0) 0.0004 - 1)
        < (10 : ℝ) ^ log10 2.0 := (Real.rpow_lt_rpow_left_iff h10).mpr
          (arange_last_lt _ _ _ log10_point1_lt_log10_two (by norm_num))
      _ = 2.0 := Real.rpow_logb (by norm_num) (by norm_num) (by norm_num)
  · unfold starRedshifts
    exact arange_zero _ _
  · exact arange_strictMono _ _ (by norm_num)
  · exact arangeLen_pos _ _ _ (by norm_num) (by norm_num)
  · unfold starRedshifts starZLen
    exact arange_last_lt _ _ _ (by norm_num) (by norm_num)
  · unfold qsoRedshifts
    rw [arange_zero]
    exact Real.rpow_logb (by norm_num) (by norm_num) (by norm_num)
  · intro a b hab
    unfold qsoRedshifts
    exact (Real.rpow_lt_rpow_left_iff h10).mpr
      (arange_strictMono _ _ (by norm_num) hab)
  · exact arangeLen_pos _ _ _ log10_half_lt_log10_four (by norm_num)
  · unfold qsoRedshifts qsoZLen
    calc (10 : ℝ) ^ arange (log10 0.5) 0.0005
          (arangeLen (log10 0.5) (log10 4.0) 0.0005 - 1)
        < (10 : ℝ) ^ log10 4.0 := (Real.rpow_lt_rpow_left_iff h10).mpr
          (arange_last_lt _ _ _ log10_half_lt_log10_four (by norm_num))
      _ = 4.0 := Real.rpow_logb (by norm_num) (by norm_num) (by norm_num)

end Redrock

namespace Redrock

/-- Embedding of the decimal digit character for `d < 10`, as Python str
formatting renders one digit of a nonnegative integer. -/
def pyDigitToChar (d : ℕ) : Char := Char.ofNat (48 + d)

/-- The decimal rendering of a nonnegative integer as a character list,
most significant digit first: how Python str formatting renders `targetid`. -/
def pyNatToChars (n : ℕ) : List Char :=
  if _h : n < 10 then [pyDigitToChar n]
  else pyNatToChars (n / 10) ++ [pyDigitToChar (n % 10)]
decreasing_by exact Nat.div_lt_self (by omega) (by norm_num)

/-- Embedding of `str(targetid)`: the path segment that `write_zscan` uses
for a target id (io.py line 141). -/
def pyStrOfNat (n : ℕ) : String := ⟨pyNatToChars n⟩

def pyIsDigit (c : Char) : Bool := 48 ≤ c.toNat && c.toNat ≤ 57

def pyDigitsVal (cs : List Char) : ℕ :=
  cs.foldl (fun a c => 10 * a + (c.toNat - 48)) 0

/-- Embedding of `int(targetid)` on the nonnegative decimal path segments
`read_zscan` walks (io.py lines 166-170): the parsed value, or none for text
that the Python `int` builtin would reject. -/
def pyIntOfStr (s : String) : Option ℕ :=
  if s.data ≠ [] ∧ s.data.all pyIsDigit then some (pyDigitsVal s.data)
  else none

theorem pyDigitToChar_toNat (d : ℕ) (hd : d < 10) :
    (pyDigitToChar d).toNat = 48 + d := by
  interval_cases d <;> decide

theorem pyIsDigit_pyDigitToChar (d : ℕ) (hd : d < 10) :
    pyIsDigit (pyDigitToChar d) = true := by
  interval_cases d <;> decide

theorem pyNatToChars_all_digits (n : ℕ) :
    (pyNatToChars n).all pyIsDigit = true := by
  induction n using Nat.strong_induction_on with
  | _ n ih =>
    unfold pyNatToChars
    by_cases h : n < 10
    · rw [dif_pos h]
      simp [pyIsDigit_pyDigitToChar n h]
    · rw [dif_neg h]
      rw [List.all_append, ih (n / 10) (Nat.div_lt_self (by omega) (by norm_num))]
      simp [pyIsDigit_pyDigitToChar (n % 10) (Nat.mod_lt n (by norm_num))]

theorem pyNatToChars_ne_nil (n : ℕ) : pyNatToChars n ≠ [] := by
  unfold pyNatToChars
  by_cases h : n < 10
  · rw [dif_pos h]
    simp
  · rw [dif_neg h]
    simp

theorem pyDigitsVal_append_digit (cs : List Char) (c : Char) :
    pyDigitsVal (cs ++ [c]) = 10 * pyDigitsVal cs + (c.toNat - 48) := by
  unfold pyDigitsVal
  rw [List.foldl_append]
  rfl

theorem pyDigitsVal_pyNatToChars (n : ℕ) :
    pyDigitsVal (pyNatToChars n) = n := by
  induction n using Nat.strong_induction_on with
  | _ n ih =>
    unfold pyNatToChars
    by_cases h : n < 10
    · rw [dif_pos h]
      unfold pyDigitsVal
      simp [pyDigitToChar_toNat n h]
    · rw [dif_neg h]
      rw [pyDigitsVal_append_digit,
        ih (n / 10) (Nat.div_lt_self (by omega) (by norm_num)),
        pyDigitToChar_toNat (n % 10) (Nat.mod_lt n (by norm_num))]
      omega

/-- Rendering a target id to its path segment and parsing it back is the
identity: `int(str(n)) == n`. -/
theorem pyIntOfStr_pyStrOfNat (n : ℕ) : pyIntOfStr (pyStrOfNat n) = some n := by
  unfold pyIntOfStr pyStrOfNat
  rw [if_pos ⟨pyNatToChars_ne_nil n, pyNatToChars_all_digits n⟩,
    pyDigitsVal_pyNatToChars n]

end Redrock

namespace Redrock

/-- The nested results structure `zfind` hands to the store, generic in the
stored array type: `results[targetid][templatetype][field] = array`. -/
abbrev ZResults (α : Type) : Type := List (ℕ × List (String × List (String × α)))

/-- The `targets/` region of the HDF5 file, as the hierarchy of groups that
the path writes of io.py lines 138-142 build (one dataset per
`targets/tid/ttype/field` path): one group per formatted target id, holding
the per-templatetype groups with their field datasets unchanged. The summary
table written at the fixed path `zbest` (io.py lines 134-135) comes from the
external best-redshift extractor and lives outside this region. -/
def write_zscan {α : Type} (results : ZResults α) :
    List (String × List (String × List (String × α))) :=
  results.map (fun p => (pyStrOfNat p.1, p.2))

/-- Embedding of the nested walk of `read_zscan` (io.py lines 161-172): every
target-id path segment is converted back to its numeric id with `int(...)`
and the per-templatetype groups are read back field for field. The Python
`int` builtin raises on a malformed segment; the embedding totalizes that
case with 0 (a written file only holds well-formed segments). -/
def read_zscan {α : Type} (file : List (String × List (String × List (String × α)))) :
    ZResults α :=
  file.map (fun p => ((pyIntOfStr p.1).getD 0, p.2))

/-- C4: reading back a file written by `write_zscan` reconstructs the nested
results structure field for field — the target-id sequence (hence the
target-id set) is exactly preserved and every stored array is returned
unchanged. -/
theorem read_zscan_write_zscan {α : Type} (results : ZResults α) :
    read_zscan (write_zscan results) = results ∧
    (read_zscan (write_zscan results)).map Prod.fst = results.map Prod.fst := by
  have h : read_zscan (write_zscan results) = results := by
    unfold read_zscan write_zscan
    rw [List.map_map]
    have : ∀ p : ℕ × List (String × List (String × α)),
        ((fun p => ((pyIntOfStr p.1).getD 0, p.2)) ∘
          (fun p => (pyStrOfNat p.1, p.2))) p = p := by
      intro p
      simp [pyIntOfStr_pyStrOfNat p.1]
    induction results with
    | nil => rfl
    | cons a l ih =>
      rw [List.map_cons, this a, ih]
  exact ⟨h, by rw [h]⟩

end Redrock
